import Mathlib

/-!
Shallow embedding of src/src/keyboard_arm_control.py.py (the arm
motion-state engine): joint configuration, the clamped mutation entry
point, the recorder, the playback loop, the homing loop and the command
dispatcher, together with theorems checking the specification's claims
against it.
-/

set_option autoImplicit false

namespace Arm

/-- The seven servo joints of SERVO_PINS (source lines 11-19).  The set
of joints is fixed for the arm lifetime. -/
inductive Joint : Type
  | base1
  | base2
  | shoulder
  | elbow
  | armBend
  | gripperRotate
  | gripperGrasp
  deriving DecidableEq, Fintype

/-- NEUTRAL_ANGLES (source lines 22-30): the neutral angle of each joint. -/
def NEUTRAL_ANGLES : Joint → Int
  | .base1 => 180
  | .base2 => 0
  | .shoulder => 180
  | .elbow => 100
  | .armBend => 75
  | .gripperRotate => 90
  | .gripperGrasp => 80

/-- INCREMENT (source line 33): degrees moved per key press. -/
def INCREMENT : Int := 5

/-- Lower limit of a joint.  move_servo (source line 79) clamps every
joint to the same range 0..180, so each joint's minimum is 0. -/
def min_angle (_ : Joint) : Int := 0

/-- Upper limit of a joint.  move_servo (source line 79) clamps every
joint to the same range 0..180, so each joint's maximum is 180. -/
def max_angle (_ : Joint) : Int := 180

/-- The clamp of source line 79: angle = max(0, min(180, angle)). -/
def clamp (a : Int) : Int := max 0 (min 180 a)

/-- The mutable global state of the program: current_angles (line 40),
is_recording (line 41), recorded_path (line 42), the ordered log of
hardware servo writes issued so far, and the outcome messages printed. -/
@[ext]
structure SysState : Type where
  current_angles : Joint → Int
  is_recording : Bool
  recorded_path : List (Joint → Int)
  writes : List (Joint × Int)
  reports : List String

/-- Initial state: current_angles = NEUTRAL_ANGLES.copy() (line 40),
not recording, empty path (the hardware seeding writes of setup_board
are connection glue and the log starts empty here). -/
def initState : SysState :=
  { current_angles := NEUTRAL_ANGLES
    is_recording := false
    recorded_path := []
    writes := []
    reports := [] }

/-- move_servo (source lines 76-84): clamp the angle to 0..180, store
it in current_angles and issue a hardware write of the clamped value.
Every Joint is configured in setup_board, so the name-not-found branch
of line 83 is unreachable for the joints this type admits. -/
def move_servo (s : SysState) (j : Joint) (angle : Int) : SysState :=
  let a := clamp angle
  { s with
    current_angles := Function.update s.current_angles j a
    writes := s.writes ++ [(j, a)] }

/-- record_current_state (source lines 86-89): if recording is active,
append a copy of the current angle mapping to recorded_path. -/
def record_current_state (s : SysState) : SysState :=
  if s.is_recording then
    { s with recorded_path := s.recorded_path ++ [s.current_angles] }
  else s

/-- The logical command tokens consumed by process_command
(source lines 193-268). -/
inductive Command : Type
  | left
  | right
  | up
  | down
  | keyW
  | keyS
  | keyT
  | keyY
  | keyA
  | keyD
  | key1
  | key2
  | keyR
  | keyP
  | keyO
  | keyH
  | keyHelp
  deriving DecidableEq

/-- The movement part of process_command (source lines 198-228): each
movement token calls move_servo with the current angle plus or minus
INCREMENT; control tokens move nothing.  For left and right the second
move_servo call reads current_angles after the first call returned, as
in the source. -/
def moveDelta (s : SysState) (c : Command) : SysState :=
  match c with
  | .left =>
      let s1 := move_servo s .base1 (s.current_angles .base1 + INCREMENT)
      move_servo s1 .base2 (s1.current_angles .base2 - INCREMENT)
  | .right =>
      let s1 := move_servo s .base1 (s.current_angles .base1 - INCREMENT)
      move_servo s1 .base2 (s1.current_angles .base2 + INCREMENT)
  | .down => move_servo s .shoulder (s.current_angles .shoulder + INCREMENT)
  | .up => move_servo s .shoulder (s.current_angles .shoulder - INCREMENT)
  | .keyW => move_servo s .elbow (s.current_angles .elbow + INCREMENT)
  | .keyS => move_servo s .elbow (s.current_angles .elbow - INCREMENT)
  | .keyT => move_servo s .armBend (s.current_angles .armBend + INCREMENT)
  | .keyY => move_servo s .armBend (s.current_angles .armBend - INCREMENT)
  | .keyA => move_servo s .gripperRotate (s.current_angles .gripperRotate + INCREMENT)
  | .keyD => move_servo s .gripperRotate (s.current_angles .gripperRotate - INCREMENT)
  | .key1 => move_servo s .gripperGrasp (s.current_angles .gripperGrasp + INCREMENT)
  | .key2 => move_servo s .gripperGrasp (s.current_angles .gripperGrasp - INCREMENT)
  | _ => s

/-- True for the tokens of source line 267 that trigger a recording
append: every token not in [r, p, o, h, help]. -/
def isMove (c : Command) : Bool :=
  match c with
  | .keyR | .keyP | .keyO | .keyH | .keyHelp => false
  | _ => true

/-- process_command (source lines 193-268) restricted to its synchronous
state effect.  Movement tokens move the servos then call
record_current_state (line 268); r starts recording and clears the path
or reports already recording (lines 231-237); p reports when recording,
otherwise spawns the playback thread whose effect is modelled by
playback_path below (lines 239-245); o stops recording or reports
(lines 247-252); h spawns the homing thread (lines 254-257); help only
prints instructions (lines 259-260). -/
def processCommand (s : SysState) (c : Command) : SysState :=
  match c with
  | .keyR =>
      if !s.is_recording then
        { s with
          is_recording := true
          recorded_path := []
          reports := s.reports ++ ["REC: Recording started."] }
      else { s with reports := s.reports ++ ["Already recording."] }
  | .keyP =>
      if s.is_recording then
        { s with reports := s.reports ++ ["Stop recording (o) before playing back."] }
      else s
  | .keyO =>
      if s.is_recording then
        { s with
          is_recording := false
          reports := s.reports ++ ["REC: Recording stopped."] }
      else { s with reports := s.reports ++ ["Not currently recording."] }
  | .keyH => s
  | .keyHelp => s
  | c => record_current_state (moveDelta s c)

/-- Folding process_command over a list of command tokens in order. -/
def processList (s : SysState) (cs : List Command) : SysState :=
  cs.foldl processCommand s

/-- The insertion (= iteration) order of the angle dictionaries: the key
order of NEUTRAL_ANGLES (lines 22-30), which current_angles copies
(line 40) and every snapshot copies in turn (line 89). -/
def jointOrder : List Joint :=
  [.base1, .base2, .shoulder, .elbow, .armBend, .gripperRotate, .gripperGrasp]

/-- The hardware writes issued while applying one snapshot in the
playback inner loop (lines 139-141): one write per joint, in dictionary
iteration order, of the snapshot's stored angle. -/
def snapWrites (snap : Joint → Int) : List (Joint × Int) :=
  jointOrder.map (fun j => (j, snap j))

/-- The playback inner loop (lines 139-142): for every key of the
snapshot, write the stored angle to the servo and assign it into
current_angles directly, without passing through move_servo's clamp. -/
def applySnapshot (s : SysState) (snap : Joint → Int) : SysState :=
  { s with
    current_angles := jointOrder.foldl (fun m j => Function.update m j (snap j)) s.current_angles
    writes := s.writes ++ snapWrites snap }

/-- One raw per-joint playback write (lines 140-141): hardware write of
the snapshot angle and direct assignment into current_angles, with no
clamping.  applySnapshot is the composition of these over jointOrder. -/
def setAngleRaw (s : SysState) (j : Joint) (a : Int) : SysState :=
  { s with
    current_angles := Function.update s.current_angles j a
    writes := s.writes ++ [(j, a)] }

/-- The playback loop of playback_path (lines 134-142).  cancelledAt i
tells whether stop_event.is_set() holds at the check performed before
step i; on a set token the loop breaks after printing the interrupted
report, otherwise it applies the snapshot and continues with the next
index. -/
def playbackFrom (cancelledAt : Nat → Bool) :
    List (Joint → Int) → Nat → SysState → SysState
  | [], _, s => s
  | snap :: rest, i, s =>
      if cancelledAt i then
        { s with reports := s.reports ++ ["Playback interrupted."] }
      else playbackFrom cancelledAt rest (i + 1) (applySnapshot s snap)

/-- playback_path (source lines 127-145): report and return when nothing
is recorded, otherwise run the loop over recorded_path from index 0 and
print the finished banner (which line 144 prints even after a break). -/
def playback_path (cancelledAt : Nat → Bool) (s : SysState) : SysState :=
  if s.recorded_path = [] then
    { s with reports := s.reports ++ ["Nothing recorded to play back."] }
  else
    let s1 := playbackFrom cancelledAt s.recorded_path 0 s
    { s1 with reports := s1.reports ++ ["Playback Finished"] }

/-- Sequential application of a list of snapshots with no cancellation:
the effect of the playback loop when the stop event is never set. -/
def applyList (s : SysState) : List (Joint → Int) → SysState
  | [] => s
  | snap :: rest => applyList (applySnapshot s snap) rest

/-- One homing tick of return_to_neutral_slowly (source lines 108-119)
acting on the angle mapping: every joint already at its neutral angle is
left alone; every other joint moves one degree toward neutral through
move_servo, hence through clamp.  The per-joint updates of one tick are
independent, so the tick is the simultaneous map. -/
def homingTick (a : Joint → Int) : Joint → Int :=
  fun j =>
    if a j = NEUTRAL_ANGLES j then a j
    else if a j < NEUTRAL_ANGLES j then clamp (a j + 1)
    else clamp (a j - 1)

/-- Sum over the joints of the absolute distance from neutral: the
termination measure of the homing loop. -/
def homingDist (a : Joint → Int) : Nat :=
  Finset.univ.sum (fun j => (a j - NEUTRAL_ANGLES j).natAbs)

/-- The homing loop of return_to_neutral_slowly (source lines 103-121)
acting on the angle mapping, without cancellation: tick until every
joint's angle equals its neutral angle. -/
def homingRun (a : Joint → Int) : Joint → Int :=
  if h : ∀ j, a j = NEUTRAL_ANGLES j then a
  else homingRun (homingTick a)
termination_by homingDist a
decreasing_by
  push_neg at h
  obtain ⟨j0, hj0⟩ := h
  have key : ∀ j : Joint,
      (homingTick a j - NEUTRAL_ANGLES j).natAbs ≤ (a j - NEUTRAL_ANGLES j).natAbs ∧
      (a j ≠ NEUTRAL_ANGLES j →
        (homingTick a j - NEUTRAL_ANGLES j).natAbs < (a j - NEUTRAL_ANGLES j).natAbs) := by
    intro j
    have hN0 : (0 : Int) ≤ NEUTRAL_ANGLES j := by cases j <;> simp [NEUTRAL_ANGLES]
    have hN1 : NEUTRAL_ANGLES j ≤ 180 := by cases j <;> simp [NEUTRAL_ANGLES]
    simp only [homingTick, clamp]
    split_ifs with h1 h2
    · simp [h1]
    · constructor <;> intros <;> omega
    · constructor <;> intros <;> omega
  simp only [homingDist]
  exact Finset.sum_lt_sum (fun j _ => (key j).1)
    ⟨j0, Finset.mem_univ j0, (key j0).2 hj0⟩

/-- In-range predicate: every stored angle lies within the joint's
limits, the spec's ArmState invariant. -/
def inRange (a : Joint → Int) : Prop :=
  ∀ j, min_angle j ≤ a j ∧ a j ≤ max_angle j

instance (a : Joint → Int) : Decidable (inRange a) := by
  unfold inRange
  infer_instance

/-- The states reachable from the initial neutral seeding by the
mutations the program performs, in any interleaving.  current_angles is
mutated only at line 81 (move_servo, from manual moves and homing) and
line 141 (raw playback writes of a snapshot taken from the recorded
path of some reachable moment); recorded_path is mutated only at line
89 (append) and line 234 (clear on record start); is_recording at lines
233 and 249; reports grow at the prints. -/
inductive Reachable : SysState → Prop
  | init : Reachable initState
  | move (s : SysState) (j : Joint) (a : Int) :
      Reachable s → Reachable (move_servo s j a)
  | record (s : SysState) :
      Reachable s → Reachable (record_current_state s)
  | recStart (s : SysState) :
      Reachable s → Reachable { s with is_recording := true, recorded_path := [] }
  | recStop (s : SysState) :
      Reachable s → Reachable { s with is_recording := false }
  | report (s : SysState) (msg : String) :
      Reachable s → Reachable { s with reports := s.reports ++ [msg] }
  | playWrite (s t : SysState) (snap : Joint → Int) (j : Joint) :
      Reachable s → Reachable t → snap ∈ t.recorded_path →
      Reachable (setAngleRaw s j (snap j))

/-- The kinds of long-running daemon threads process_command can spawn
(lines 244-245 and 256-257). -/
inductive RunKind : Type
  | playback
  | homing
  deriving DecidableEq

/-- A configuration: the shared state together with the spawned
playback/homing threads still in flight. -/
structure Config : Type where
  st : SysState
  runs : List RunKind

/-- process_command at the configuration level: the p branch spawns a
playback thread whenever recording is not active (lines 243-245), the h
branch always spawns a homing thread (lines 255-257); no branch
consults the list of runs already in flight, because the source keeps
no such flag.  All other tokens act synchronously on the state. -/
def dispatch (c : Config) (cmd : Command) : Config :=
  match cmd with
  | .keyP =>
      if c.st.is_recording then
        { c with st := processCommand c.st .keyP }
      else { st := c.st, runs := c.runs ++ [RunKind.playback] }
  | .keyH => { st := c.st, runs := c.runs ++ [RunKind.homing] }
  | cmd => { c with st := processCommand c.st cmd }

/-- A state with recording active and an empty trajectory: the state
right after pressing r in the initial state. -/
def sRec : SysState := { initState with is_recording := true }

/-- A concrete snapshot with every joint at 10 degrees. -/
def snapA : Joint → Int := fun _ => 10

/-- A concrete snapshot with every joint at 20 degrees. -/
def snapB : Joint → Int := fun _ => 20

/-- A state holding a completed two-point trajectory. -/
def sPath : SysState := { initState with recorded_path := [snapA, snapB] }

/-- A configuration with a homing run already in flight and recording
inactive. -/
def cfg0 : Config := { st := initState, runs := [RunKind.homing] }

/-- A concrete in-range angle mapping with every joint at 90 degrees. -/
def homingStart : Joint → Int := fun _ => 90

theorem clamp_nonneg (a : Int) : 0 ≤ clamp a := le_max_left 0 _

theorem clamp_le (a : Int) : clamp a ≤ 180 := by
  unfold clamp
  rcases le_total 0 (min 180 a) with h | h
  · rw [max_eq_right h]; exact min_le_left 180 a
  · rw [max_eq_left h]; omega

theorem clamp_of_range {a : Int} (h0 : 0 ≤ a) (h1 : a ≤ 180) : clamp a = a := by
  unfold clamp
  rw [min_eq_right h1, max_eq_right h0]

/-- Claim C1: for every joint and every requested angle (negative and
above 180 included), move_servo stores the clamped value
clamp(angle) = max(0, min(180, angle)) in current_angles, issues
exactly one hardware write of that clamped value for that joint, and
the applied result (the value it stores, writes and yields) always
lies within [min_angle, max_angle] for that joint. -/
theorem C1_set_angle_clamps (s : SysState) (j : Joint) (angle : Int) :
    (move_servo s j angle).current_angles j = clamp angle ∧
    (move_servo s j angle).writes = s.writes ++ [(j, clamp angle)] ∧
    min_angle j ≤ (move_servo s j angle).current_angles j ∧
    (move_servo s j angle).current_angles j ≤ max_angle j := by
  refine ⟨?_, rfl, ?_, ?_⟩
  · simp [move_servo]
  · simp [move_servo, min_angle]
    exact clamp_nonneg angle
  · simp [move_servo, max_angle]
    exact clamp_le angle

/-- Claim C9: pressing r twice in a row produces exactly the state of
pressing it once, except for one appended already-recording report: in
particular the second start does not clear or reset the in-progress
trajectory and the angles are untouched. -/
theorem C9_record_start_idempotent (s : SysState) :
    processCommand (processCommand s .keyR) .keyR =
      { processCommand s .keyR with
        reports := (processCommand s .keyR).reports ++ ["Already recording."] } := by
  cases hrec : s.is_recording <;> simp [processCommand, hrec]

/-- Claim C7: begin-playback while a recording session is active only
appends a rejection report; the trajectory, the angles, the write log
and the recording flag are unchanged, and at the configuration level no
run is spawned. -/
theorem C7_playback_rejected_while_recording (s : SysState) (runs : List RunKind)
    (h : s.is_recording = true) :
    processCommand s .keyP =
      { s with reports := s.reports ++ ["Stop recording (o) before playing back."] } ∧
    (processCommand s .keyP).recorded_path = s.recorded_path ∧
    (processCommand s .keyP).current_angles = s.current_angles ∧
    (processCommand s .keyP).writes = s.writes ∧
    (dispatch { st := s, runs := runs } .keyP).runs = runs := by
  refine ⟨?_, ?_, ?_, ?_, ?_⟩ <;> simp [processCommand, dispatch, h]

theorem C7_playback_rejected_while_recording_witness :
    (processCommand sRec Command.keyP).recorded_path = sRec.recorded_path ∧
    (processCommand sRec Command.keyP).current_angles = sRec.current_angles ∧
    (dispatch { st := sRec, runs := [RunKind.homing] } Command.keyP).runs = [RunKind.homing] :=
  ⟨(C7_playback_rejected_while_recording sRec [RunKind.homing] rfl).2.1,
   (C7_playback_rejected_while_recording sRec [RunKind.homing] rfl).2.2.1,
   (C7_playback_rejected_while_recording sRec [RunKind.homing] rfl).2.2.2.2⟩

theorem record_current_state_angles (s : SysState) :
    (record_current_state s).current_angles = s.current_angles := by
  unfold record_current_state
  split <;> rfl

theorem record_current_state_flags (s : SysState) :
    (record_current_state s).is_recording = s.is_recording ∧
    (record_current_state s).writes = s.writes := by
  unfold record_current_state
  split <;> exact ⟨rfl, rfl⟩

/-- Claim C8: from base angles (a, b) a single left command sets the
two coupled base joints to exactly (clamp(a + INCREMENT),
clamp(b - INCREMENT)) and moves no other joint; right applies the
exact inverse deltas; and in both cases the state recorded (when
recording is active) is the single combined snapshot taken after both
deltas were applied. -/
theorem C8_differential_base_drive (s : SysState) :
    (∀ j, (processCommand s .left).current_angles j =
        (if j = .base1 then clamp (s.current_angles .base1 + INCREMENT)
         else if j = .base2 then clamp (s.current_angles .base2 - INCREMENT)
         else s.current_angles j)) ∧
    (∀ j, (processCommand s .right).current_angles j =
        (if j = .base1 then clamp (s.current_angles .base1 - INCREMENT)
         else if j = .base2 then clamp (s.current_angles .base2 + INCREMENT)
         else s.current_angles j)) ∧
    (processCommand s .left).recorded_path =
      (if s.is_recording then
        s.recorded_path ++ [(processCommand s .left).current_angles]
       else s.recorded_path) ∧
    (processCommand s .right).recorded_path =
      (if s.is_recording then
        s.recorded_path ++ [(processCommand s .right).current_angles]
       else s.recorded_path) := by
  refine ⟨?_, ?_, ?_, ?_⟩
  · intro j
    rw [show processCommand s .left = record_current_state (moveDelta s .left) from rfl,
      record_current_state_angles]
    cases j <;> simp [moveDelta, move_servo, Function.update]
  · intro j
    rw [show processCommand s .right = record_current_state (moveDelta s .right) from rfl,
      record_current_state_angles]
    cases j <;> simp [moveDelta, move_servo, Function.update]
  · cases hrec : s.is_recording <;>
      simp [processCommand, record_current_state, moveDelta, move_servo, hrec]
  · cases hrec : s.is_recording <;>
      simp [processCommand, record_current_state, moveDelta, move_servo, hrec]

/-- Claim C10: while recording, a relative move whose request clamps
back to the joint's current angle (here down at the shoulder limit of
180, requesting 185) still executes: the angles are unchanged, the
hardware write of the clamped value is still issued, and one snapshot
is appended; doing it twice yields two consecutive identical snapshots
in the trajectory. -/
theorem C10_clamped_move_still_records (s : SysState)
    (h1 : s.is_recording = true) (h2 : s.current_angles .shoulder = 180) :
    (processCommand s .down).current_angles = s.current_angles ∧
    (processCommand s .down).recorded_path = s.recorded_path ++ [s.current_angles] ∧
    (processCommand s .down).writes = s.writes ++ [(Joint.shoulder, 180)] ∧
    (processCommand (processCommand s .down) .down).recorded_path =
      s.recorded_path ++ [s.current_angles, s.current_angles] := by
  have hc : clamp (s.current_angles .shoulder + INCREMENT) = s.current_angles .shoulder := by
    rw [h2]; decide
  have hupd :
      Function.update s.current_angles .shoulder
        (clamp (s.current_angles .shoulder + INCREMENT)) = s.current_angles := by
    rw [hc]
    exact Function.update_eq_self _ _
  have hstep : processCommand s .down =
      { s with
        current_angles := s.current_angles
        recorded_path := s.recorded_path ++ [s.current_angles]
        writes := s.writes ++ [(Joint.shoulder, 180)] } := by
    simp [processCommand, record_current_state, moveDelta, move_servo, h1, hupd]
    rw [hc, h2]
  have hstep2 : processCommand (processCommand s .down) .down =
      { s with
        current_angles := s.current_angles
        recorded_path := s.recorded_path ++ [s.current_angles, s.current_angles]
        writes := s.writes ++ [(Joint.shoulder, 180), (Joint.shoulder, 180)] } := by
    rw [hstep]
    simp [processCommand, record_current_state, moveDelta, move_servo, h1, hupd]
    rw [hc, h2]
  rw [hstep2, hstep]
  simp

theorem C10_clamped_move_still_records_witness :
    (processCommand sRec Command.down).current_angles = sRec.current_angles ∧
    (processCommand (processCommand sRec Command.down) Command.down).recorded_path =
      [sRec.current_angles, sRec.current_angles] :=
  ⟨(C10_clamped_move_still_records sRec rfl rfl).1,
   (C10_clamped_move_still_records sRec rfl rfl).2.2.2⟩

theorem applySnapshot_angles (s : SysState) (snap : Joint → Int) :
    (applySnapshot s snap).current_angles = snap := by
  funext j
  cases j <;> rfl

theorem applySnapshot_misc (s : SysState) (snap : Joint → Int) :
    (applySnapshot s snap).writes = s.writes ++ snapWrites snap ∧
    (applySnapshot s snap).is_recording = s.is_recording ∧
    (applySnapshot s snap).recorded_path = s.recorded_path ∧
    (applySnapshot s snap).reports = s.reports :=
  ⟨rfl, rfl, rfl, rfl⟩

theorem applyList_misc (p : List (Joint → Int)) :
    ∀ s : SysState,
      (applyList s p).writes = s.writes ++ p.flatMap snapWrites ∧
      (applyList s p).is_recording = s.is_recording ∧
      (applyList s p).recorded_path = s.recorded_path ∧
      (applyList s p).reports = s.reports := by
  induction p with
  | nil => intro s; simp [applyList]
  | cons snap rest ih =>
      intro s
      obtain ⟨hw, hr, hp, hrep⟩ := ih (applySnapshot s snap)
      refine ⟨?_, ?_, ?_, ?_⟩
      · show (applyList (applySnapshot s snap) rest).writes = _
        rw [hw, (applySnapshot_misc s snap).1, List.flatMap_cons, List.append_assoc]
      · show (applyList (applySnapshot s snap) rest).is_recording = _
        rw [hr, (applySnapshot_misc s snap).2.1]
      · show (applyList (applySnapshot s snap) rest).recorded_path = _
        rw [hp, (applySnapshot_misc s snap).2.2.1]
      · show (applyList (applySnapshot s snap) rest).reports = _
        rw [hrep, (applySnapshot_misc s snap).2.2.2]

theorem applyList_last (p : List (Joint → Int)) :
    ∀ (s : SysState) (h : p ≠ []),
      (applyList s p).current_angles = p.getLast h := by
  induction p with
  | nil => intro s h; exact absurd rfl h
  | cons snap rest ih =>
      intro s h
      cases rest with
      | nil =>
          show (applySnapshot s snap).current_angles = _
          rw [applySnapshot_angles]
          rfl
      | cons b l =>
          have hne : b :: l ≠ [] := List.cons_ne_nil b l
          rw [List.getLast_cons hne]
          exact ih (applySnapshot s snap) hne

theorem playbackFrom_nocancel (p : List (Joint → Int)) :
    ∀ (i : Nat) (s : SysState),
      playbackFrom (fun _ => false) p i s = applyList s p := by
  induction p with
  | nil => intro i s; rfl
  | cons snap rest ih =>
      intro i s
      simp [playbackFrom, applyList, ih]

theorem playbackFrom_shift (c : Nat → Bool) (p : List (Joint → Int)) :
    ∀ (i : Nat) (s : SysState),
      playbackFrom c p (i + 1) s = playbackFrom (fun m => c (m + 1)) p i s := by
  induction p with
  | nil => intro i s; rfl
  | cons snap rest ih =>
      intro i s
      simp only [playbackFrom]
      by_cases hc : c (i + 1) = true
      · simp [hc]
      · simp only [Bool.not_eq_true] at hc
        simp [hc, ih]

theorem playbackFrom_cancel (k : Nat) :
    ∀ (p : List (Joint → Int)) (s : SysState), k < p.length →
      playbackFrom (fun i => decide (k ≤ i)) p 0 s =
        { applyList s (p.take k) with
          reports := (applyList s (p.take k)).reports ++ ["Playback interrupted."] } := by
  induction k with
  | zero =>
      intro p s hk
      cases p with
      | nil => simp at hk
      | cons snap rest => simp [playbackFrom, applyList]
  | succ k ih =>
      intro p s hk
      cases p with
      | nil => simp at hk
      | cons snap rest =>
          have hk' : k < rest.length := by simpa using hk
          have hfun : (fun m => decide (k + 1 ≤ m + 1)) = (fun m => decide (k ≤ m)) := by
            funext m
            simp
          simp only [playbackFrom, decide_eq_true_eq]
          rw [if_neg (by omega), playbackFrom_shift, hfun, ih rest (applySnapshot s snap) hk']
          simp [applyList]

theorem moveDelta_flags (s : SysState) (c : Command) :
    (moveDelta s c).is_recording = s.is_recording ∧
    (moveDelta s c).recorded_path = s.recorded_path := by
  cases c <;> exact ⟨rfl, rfl⟩

theorem processCommand_move (s : SysState) (c : Command)
    (hm : isMove c = true) (hr : s.is_recording = true) :
    (processCommand s c).is_recording = true ∧
    (processCommand s c).recorded_path =
      s.recorded_path ++ [(moveDelta s c).current_angles] := by
  have key : processCommand s c = record_current_state (moveDelta s c) := by
    cases c <;> first | rfl | simp [isMove] at hm
  rw [key]
  obtain ⟨h1, h2⟩ := moveDelta_flags s c
  unfold record_current_state
  rw [h1, hr]
  simp [h2]

theorem processList_moves (cs : List Command) :
    ∀ s : SysState, s.is_recording = true → (∀ c ∈ cs, isMove c = true) →
      (processList s cs).is_recording = true ∧
      (processList s cs).recorded_path.length = s.recorded_path.length + cs.length := by
  induction cs with
  | nil => intro s hr _; exact ⟨hr, by simp [processList]⟩
  | cons c rest ih =>
      intro s hr hm
      have hc := processCommand_move s c (hm c (List.mem_cons_self c rest)) hr
      have hrest := ih (processCommand s c) hc.1 (fun d hd => hm d (List.mem_cons_of_mem c hd))
      refine ⟨hrest.1, ?_⟩
      have : processList s (c :: rest) = processList (processCommand s c) rest := rfl
      rw [this, hrest.2, hc.2]
      simp
      omega

theorem playback_path_nocancel (s : SysState) (hne : s.recorded_path ≠ []) :
    (playback_path (fun _ => false) s).writes =
      s.writes ++ s.recorded_path.flatMap snapWrites ∧
    (playback_path (fun _ => false) s).current_angles = s.recorded_path.getLast hne := by
  unfold playback_path
  rw [if_neg hne, playbackFrom_nocancel]
  constructor
  · show (applyList s s.recorded_path).writes = _
    exact (applyList_misc _ s).1
  · show (applyList s s.recorded_path).current_angles = _
    exact applyList_last _ s hne

/-- Claim C3: recording N manual moves (any nonempty list of movement
tokens processed while recording is active) appends exactly N
snapshots; stopping the recording and replaying the completed
trajectory with no cancellation issues, per recorded snapshot in
recording order, exactly that snapshot's block of absolute hardware
writes, and leaves current_angles exactly equal to the last recorded
snapshot. -/
theorem C3_playback_fidelity (s : SysState) (cs : List Command)
    (h0 : s.recorded_path = []) (h1 : s.is_recording = true)
    (h2 : ∀ c ∈ cs, isMove c = true) (h3 : cs ≠ []) :
    (processList s cs).recorded_path.length = cs.length ∧
    (playback_path (fun _ => false) (processCommand (processList s cs) .keyO)).writes =
      (processCommand (processList s cs) .keyO).writes ++
        (processList s cs).recorded_path.flatMap snapWrites ∧
    (processList s cs).recorded_path.getLast? =
      some ((playback_path (fun _ => false)
        (processCommand (processList s cs) .keyO)).current_angles) := by
  have hrec1 : (processList s cs).is_recording = true :=
    (processList_moves cs s h1 h2).1
  have hlen : (processList s cs).recorded_path.length = cs.length := by
    have hl := (processList_moves cs s h1 h2).2
    rw [h0] at hl
    simpa using hl
  have hne : (processList s cs).recorded_path ≠ [] := by
    intro hnil
    rw [hnil] at hlen
    cases cs with
    | nil => exact h3 rfl
    | cons c rest => simp at hlen
  have hpath2 : (processCommand (processList s cs) .keyO).recorded_path =
      (processList s cs).recorded_path := by
    simp [processCommand, hrec1]
  have hne2 : (processCommand (processList s cs) .keyO).recorded_path ≠ [] := by
    rw [hpath2]; exact hne
  have hwr := (playback_path_nocancel (processCommand (processList s cs) .keyO) hne2).1
  have hang := (playback_path_nocancel (processCommand (processList s cs) .keyO) hne2).2
  refine ⟨hlen, ?_, ?_⟩
  · rw [hwr]
    rw [hpath2]
  · rw [hang]
    rw [List.getLast?_eq_getLast _ hne]
    congr 1
    simp only [hpath2]

theorem C3_playback_fidelity_witness :
    (processList sRec [Command.up, Command.up]).recorded_path.length = 2 ∧
    (processList sRec [Command.up, Command.up]).recorded_path.getLast? =
      some ((playback_path (fun _ => false)
        (processCommand (processList sRec [Command.up, Command.up]) .keyO)).current_angles) :=
  ⟨(C3_playback_fidelity sRec [Command.up, Command.up] rfl rfl (by decide)
      (by decide)).1,
   (C3_playback_fidelity sRec [Command.up, Command.up] rfl rfl (by decide)
      (by decide)).2.2⟩

/-- Claim C5: when the cancel token becomes set once step k (k at least
1) of the trajectory has been fully applied and further steps remain,
the playback loop observes the token at the check it performs before
step k+1, issues no hardware write beyond the first k snapshots (the
write log grows by exactly the blocks of snapshots 1..k, in order),
reports the interruption, and leaves current_angles exactly equal to
snapshot k; the partial progress is retained with no rollback. -/
theorem C5_cancellation_mid_playback (s : SysState) (k : Nat)
    (h1 : 1 ≤ k) (h2 : k < s.recorded_path.length) :
    (playback_path (fun i => decide (k ≤ i)) s).current_angles =
      s.recorded_path.get ⟨k - 1, by omega⟩ ∧
    (playback_path (fun i => decide (k ≤ i)) s).writes =
      s.writes ++ (s.recorded_path.take k).flatMap snapWrites ∧
    (playback_path (fun i => decide (k ≤ i)) s).reports =
      s.reports ++ ["Playback interrupted.", "Playback Finished"] := by
  have hne : s.recorded_path ≠ [] := by
    intro hnil
    rw [hnil] at h2
    simp at h2
  have hrun := playbackFrom_cancel k s.recorded_path s h2
  have hplay : playback_path (fun i => decide (k ≤ i)) s =
      { applyList s (s.recorded_path.take k) with
        reports := (applyList s (s.recorded_path.take k)).reports ++
          ["Playback interrupted.", "Playback Finished"] } := by
    unfold playback_path
    rw [if_neg hne, hrun]
    simp
  have htake_len : (s.recorded_path.take k).length = k := by
    rw [List.length_take]
    omega
  have htake_ne : s.recorded_path.take k ≠ [] := by
    intro hnil
    rw [hnil] at htake_len
    simp at htake_len
    omega
  refine ⟨?_, ?_, ?_⟩
  · rw [hplay]
    show (applyList s (s.recorded_path.take k)).current_angles = _
    rw [applyList_last _ s htake_ne]
    rw [List.getLast_eq_getElem, List.getElem_take]
    rw [List.get_eq_getElem]
    congr 1
    rw [htake_len]
  · rw [hplay]
    show (applyList s (s.recorded_path.take k)).writes = _
    exact (applyList_misc _ s).1
  · rw [hplay]
    show (applyList s (s.recorded_path.take k)).reports ++ _ = _
    rw [(applyList_misc _ s).2.2.2]

theorem C5_cancellation_mid_playback_witness :
    (playback_path (fun i => decide (1 ≤ i)) sPath).current_angles = snapA ∧
    (playback_path (fun i => decide (1 ≤ i)) sPath).writes = snapWrites snapA :=
  ⟨(C5_cancellation_mid_playback sPath 1 (by decide) (by decide)).1,
   (C5_cancellation_mid_playback sPath 1 (by decide) (by decide)).2.1⟩

theorem NEUTRAL_ANGLES_range (j : Joint) :
    0 ≤ NEUTRAL_ANGLES j ∧ NEUTRAL_ANGLES j ≤ 180 := by
  cases j <;> simp [NEUTRAL_ANGLES]

theorem homingTick_abs_le (a : Joint → Int) (j : Joint) :
    (homingTick a j - NEUTRAL_ANGLES j).natAbs ≤ (a j - NEUTRAL_ANGLES j).natAbs ∧
    (a j ≠ NEUTRAL_ANGLES j →
      (homingTick a j - NEUTRAL_ANGLES j).natAbs < (a j - NEUTRAL_ANGLES j).natAbs) := by
  obtain ⟨hN0, hN1⟩ := NEUTRAL_ANGLES_range j
  simp only [homingTick, clamp]
  split_ifs with h1 h2
  · simp [h1]
  · constructor <;> intros <;> omega
  · constructor <;> intros <;> omega

theorem homingDist_tick_le (a : Joint → Int) :
    homingDist (homingTick a) ≤ homingDist a :=
  Finset.sum_le_sum fun j _ => (homingTick_abs_le a j).1

theorem homingDist_tick_lt (a : Joint → Int) (h : ∃ j, a j ≠ NEUTRAL_ANGLES j) :
    homingDist (homingTick a) < homingDist a := by
  obtain ⟨j0, hj0⟩ := h
  exact Finset.sum_lt_sum (fun j _ => (homingTick_abs_le a j).1)
    ⟨j0, Finset.mem_univ j0, (homingTick_abs_le a j0).2 hj0⟩

theorem homingRun_reaches_neutral (a : Joint → Int) :
    homingRun a = NEUTRAL_ANGLES := by
  rw [homingRun]
  split_ifs with h
  · funext j
    exact h j
  · exact homingRun_reaches_neutral (homingTick a)
termination_by homingDist a
decreasing_by
  exact homingDist_tick_lt a (by push_neg at h; exact h)

/-- Claim C4: from any in-range angle mapping, one homing tick leaves
every converged joint alone and moves every non-converged joint by
exactly 1 degree (not INCREMENT) strictly toward its neutral angle, so
the sum of absolute per-joint distances from neutral never increases
and strictly decreases whenever some joint is not yet converged; and
the homing loop terminates with every joint exactly at its neutral
angle. -/
theorem C4_homing_convergence (a : Joint → Int) (h : inRange a) :
    (∀ j, a j ≠ NEUTRAL_ANGLES j →
        (homingTick a j - NEUTRAL_ANGLES j).natAbs + 1 =
          (a j - NEUTRAL_ANGLES j).natAbs ∧
        (homingTick a j - a j).natAbs = 1) ∧
    (∀ j, a j = NEUTRAL_ANGLES j → homingTick a j = a j) ∧
    homingDist (homingTick a) ≤ homingDist a ∧
    ((∃ j, a j ≠ NEUTRAL_ANGLES j) → homingDist (homingTick a) < homingDist a) ∧
    homingRun a = NEUTRAL_ANGLES := by
  refine ⟨?_, ?_, homingDist_tick_le a, homingDist_tick_lt a,
    homingRun_reaches_neutral a⟩
  · intro j hj
    obtain ⟨hl, hu⟩ := h j
    rw [min_angle] at hl
    rw [max_angle] at hu
    obtain ⟨hN0, hN1⟩ := NEUTRAL_ANGLES_range j
    simp only [homingTick, clamp]
    rw [if_neg hj]
    split_ifs with h2 <;> constructor <;> omega
  · intro j hj
    simp [homingTick, hj]

theorem C4_homing_convergence_witness :
    inRange homingStart ∧ homingRun homingStart = NEUTRAL_ANGLES :=
  ⟨by decide, (C4_homing_convergence homingStart (by decide)).2.2.2.2⟩

/-- Claim C2: in every state reachable by any interleaving of manual
moves, recording control, recorder appends, homing writes and raw
playback snapshot writes from the initial neutral seeding, every angle
stored in current_angles lies within [min_angle, max_angle] for its
joint, and so does every angle of every snapshot in the recorded path
(which is why the playback path, although it bypasses the clamp,
cannot break the invariant). -/
theorem C2_reachable_in_range (s : SysState) (h : Reachable s) :
    (∀ j, min_angle j ≤ s.current_angles j ∧ s.current_angles j ≤ max_angle j) ∧
    (∀ snap ∈ s.recorded_path, ∀ j, min_angle j ≤ snap j ∧ snap j ≤ max_angle j) := by
  induction h with
  | init =>
      constructor
      · intro j
        cases j <;> decide
      · intro snap hsnap
        simp [initState] at hsnap
  | move s j a hs ih =>
      obtain ⟨iha, ihp⟩ := ih
      constructor
      · intro j0
        by_cases hj : j0 = j
        · subst hj
          show min_angle j0 ≤ Function.update s.current_angles j0 (clamp a) j0 ∧
            Function.update s.current_angles j0 (clamp a) j0 ≤ max_angle j0
          rw [Function.update_same]
          exact ⟨clamp_nonneg a, clamp_le a⟩
        · show min_angle j0 ≤ Function.update s.current_angles j (clamp a) j0 ∧
            Function.update s.current_angles j (clamp a) j0 ≤ max_angle j0
          rw [Function.update_noteq hj]
          exact iha j0
      · intro snap hsnap
        exact ihp snap hsnap
  | record s hs ih =>
      obtain ⟨iha, ihp⟩ := ih
      refine ⟨?_, ?_⟩
      · intro j0
        rw [record_current_state_angles]
        exact iha j0
      · intro snap hsnap
        unfold record_current_state at hsnap
        by_cases hr : s.is_recording
        · rw [if_pos hr] at hsnap
          simp only [List.mem_append, List.mem_singleton] at hsnap
          rcases hsnap with hold | hnew
          · exact ihp snap hold
          · subst hnew
            exact iha
        · rw [if_neg hr] at hsnap
          exact ihp snap hsnap
  | recStart s hs ih =>
      refine ⟨ih.1, ?_⟩
      intro snap hsnap
      simp at hsnap
  | recStop s hs ih => exact ih
  | report s msg hs ih => exact ih
  | playWrite s t snap j hs ht hmem ihs iht =>
      obtain ⟨ihsa, ihsp⟩ := ihs
      obtain ⟨ihta, ihtp⟩ := iht
      constructor
      · intro j0
        by_cases hj : j0 = j
        · subst hj
          show min_angle j0 ≤ Function.update s.current_angles j0 (snap j0) j0 ∧
            Function.update s.current_angles j0 (snap j0) j0 ≤ max_angle j0
          rw [Function.update_same]
          exact ihtp snap hmem j0
        · show min_angle j0 ≤ Function.update s.current_angles j (snap j) j0 ∧
            Function.update s.current_angles j (snap j) j0 ≤ max_angle j0
          rw [Function.update_noteq hj]
          exact ihsa j0
      · intro sn hsn
        exact ihsp sn hsn

theorem C2_reachable_in_range_witness :
    min_angle Joint.shoulder ≤
      (move_servo initState Joint.shoulder 999).current_angles Joint.shoulder ∧
    (move_servo initState Joint.shoulder 999).current_angles Joint.shoulder ≤
      max_angle Joint.shoulder :=
  (C2_reachable_in_range (move_servo initState Joint.shoulder 999)
    (Reachable.move initState Joint.shoulder 999 Reachable.init)).1 Joint.shoulder

/-- Claim C6 counterexample: with a homing run already in flight
(cfg0.runs = [homing]) and recording inactive, a begin-playback command
is not refused: it spawns a second concurrent run; and a begin-record
command is not refused either: recording turns on. -/
theorem C6_counterexample_no_single_flight_guard :
    (dispatch cfg0 Command.keyP).runs = [RunKind.homing, RunKind.playback] ∧
    (dispatch cfg0 Command.keyP).runs ≠ cfg0.runs ∧
    (dispatch cfg0 Command.keyR).st.is_recording = true := by
  refine ⟨rfl, ?_, rfl⟩
  decide

/-- Claim C6 amended: the dispatcher tracks no in-flight runs.
Begin-playback is refused only while recording is active; issued while
any number of runs is in flight (with recording off) it spawns one
more concurrent playback run; begin-homing always spawns one more
homing run; and begin-record always leaves recording on, so it is
accepted even while a playback or homing run is in flight. -/
theorem C6_amended_dispatcher_guards (c : Config) :
    (dispatch c Command.keyP).runs =
      (if c.st.is_recording then c.runs else c.runs ++ [RunKind.playback]) ∧
    (dispatch c Command.keyH).runs = c.runs ++ [RunKind.homing] ∧
    (dispatch c Command.keyR).st.is_recording = true := by
  cases hrec : c.st.is_recording <;>
    simp [dispatch, processCommand, hrec]

end Arm
